import Mathlib

/-!
Shallow embedding of `src/http.rs` from the wee-server repository.

Rust `&str`/`String` values are modelled as `List Char`; raw network
buffers (`&[u8]`) as `List Nat` with each element a byte value; the
`std::collections::HashMap<String, String>` maps are modelled as
association lists whose `insert` replaces the value of an existing key,
matching the key-to-value mapping the Rust `HashMap` provides (its
iteration order is unspecified, here it is the list order).
A call that panics in Rust (an `.unwrap()` on `None`/`Err`) is modelled
by a distinguished `panic` outcome.
-/

namespace Http

/-- Strings from the source (`&str` / `String`) as lists of characters. -/
abbrev Str := List Char

/-- The `HashMap<String, String>` maps of the source, as association lists. -/
abbrev HMap := List (Str × Str)

/-- A continuation byte of a UTF-8 sequence: `0x80 ≤ b < 0xC0`. -/
def cont (b : Nat) : Bool := decide (0x80 ≤ b ∧ b < 0xC0)

/-- Allowed second byte of a three-byte UTF-8 sequence with first byte `b`
(the ranges exclude overlong forms and surrogate code points, as
`std::str::from_utf8` does). -/
def cont3 (b x : Nat) : Bool :=
  if b = 0xE0 then decide (0xA0 ≤ x ∧ x < 0xC0)
  else if b = 0xED then decide (0x80 ≤ x ∧ x < 0xA0)
  else cont x

/-- Allowed second byte of a four-byte UTF-8 sequence with first byte `b`. -/
def cont4 (b x : Nat) : Bool :=
  if b = 0xF0 then decide (0x90 ≤ x ∧ x < 0xC0)
  else if b = 0xF4 then decide (0x80 ≤ x ∧ x < 0x90)
  else cont x

/-- UTF-8 decoding of a byte buffer, `none` exactly on the inputs
`std::str::from_utf8` rejects (model of `std::str::from_utf8(buf)`). -/
def utf8Decode : List Nat → Option (List Char)
  | [] => some []
  | b :: bs =>
    if b < 0x80 then
      (utf8Decode bs).map (fun cs => Char.ofNat b :: cs)
    else if b < 0xC2 then none
    else if b < 0xE0 then
      match bs with
      | [] => none
      | b1 :: bs1 =>
        if cont b1 then
          (utf8Decode bs1).map (fun cs =>
            Char.ofNat ((b - 0xC0) * 0x40 + (b1 - 0x80)) :: cs)
        else none
    else if b < 0xF0 then
      match bs with
      | b1 :: b2 :: bs2 =>
        if cont3 b b1 && cont b2 then
          (utf8Decode bs2).map (fun cs =>
            Char.ofNat ((b - 0xE0) * 0x1000 + (b1 - 0x80) * 0x40 + (b2 - 0x80)) :: cs)
        else none
      | _ => none
    else if b < 0xF5 then
      match bs with
      | b1 :: b2 :: b3 :: bs3 =>
        if cont4 b b1 && cont b2 && cont b3 then
          (utf8Decode bs3).map (fun cs =>
            Char.ofNat ((b - 0xF0) * 0x40000 + (b1 - 0x80) * 0x1000 +
              (b2 - 0x80) * 0x40 + (b3 - 0x80)) :: cs)
        else none
      | _ => none
    else none

/-- The UTF-8 encoding of one character, as bytes. -/
def charUtf8 (c : Char) : List Nat :=
  let n := c.toNat
  if n < 0x80 then [n]
  else if n < 0x800 then [0xC0 + n / 0x40, 0x80 + n % 0x40]
  else if n < 0x10000 then
    [0xE0 + n / 0x1000, 0x80 + n / 0x40 % 0x40, 0x80 + n % 0x40]
  else
    [0xF0 + n / 0x40000, 0x80 + n / 0x1000 % 0x40, 0x80 + n / 0x40 % 0x40,
      0x80 + n % 0x40]

/-- The UTF-8 bytes of a string (model of `str::as_bytes`). -/
def strBytes (s : String) : List Nat :=
  s.toList.foldr (fun c acc => charUtf8 c ++ acc) []

/-- The UTF-8 byte length of a string (model of Rust `String::len`). -/
def utf8Len (l : Str) : Nat := (l.map (fun c => (charUtf8 c).length)).sum

/-- Split at the first occurrence of the character `c`, excluding it
(model of `str::split_once(c)`). -/
def splitOnceChar (c : Char) : Str → Option (Str × Str)
  | [] => none
  | x :: xs =>
    if x = c then some ([], xs)
    else (splitOnceChar c xs).map (fun p => (x :: p.1, p.2))

/-- Split at the first occurrence of the (nonempty) substring `pat`,
excluding it (model of `str::split_once(pat)` for a nonempty needle). -/
def splitOnceSeq (pat : Str) : Str → Option (Str × Str)
  | [] => none
  | x :: xs =>
    if pat.isPrefixOf (x :: xs) then some ([], (x :: xs).drop pat.length)
    else (splitOnceSeq pat xs).map (fun p => (x :: p.1, p.2))

/-- Split on every occurrence of `c`; always returns at least one piece
(model of `str::split(c)`). -/
def splitAllChar (c : Char) : Str → List Str
  | [] => [[]]
  | x :: xs =>
    if x = c then [] :: splitAllChar c xs
    else
      match splitAllChar c xs with
      | [] => [[x]]
      | h :: t => (x :: h) :: t

/-- Split at the first `c` into at most two pieces; the second piece is
present exactly when `c` occurs (model of `str::splitn(2, c)` together
with the two `next()` calls the source makes on it). -/
def splitN2 (c : Char) (l : Str) : Str × Option Str :=
  match splitOnceChar c l with
  | none => (l, none)
  | some (a, b) => (a, some b)

/-- Remove every trailing occurrence of `c`
(model of `str::trim_end_matches(c)`). -/
def trimEndMatches (c : Char) (l : Str) : Str :=
  (l.reverse.dropWhile (fun x => x = c)).reverse

/-- Drop one trailing carriage return, if any (the `\r\n` handling of
`str::lines`, applied only to `\n`-terminated pieces). -/
def stripCR (l : Str) : Str :=
  match l.reverse with
  | '\r' :: t => t.reverse
  | _ => l

/-- The lines of a string (model of `str::lines`): the pieces between
`\n` separators; each `\n`-terminated piece has one trailing `\r`
removed (a `\r\n` terminator); a final piece not ended by `\n` is kept
verbatim, a trailing `\r` included; a final `\n` produces no extra empty
line. -/
def rustLines (s : Str) : List Str :=
  if s = [] then []
  else if s.getLast? = some '\n' then
    ((splitAllChar '\n' s).dropLast).map stripCR
  else
    let segs := splitAllChar '\n' s
    (segs.dropLast).map stripCR ++ [segs.getLast?.getD []]

/-- ASCII whitespace, the fragment of Unicode `White_Space` relevant to the
headers handled here (model of the character class of `str::trim`). -/
def isWS (c : Char) : Bool :=
  decide (c = ' ' ∨ c = '\t' ∨ c = '\n' ∨ c = '\r' ∨ c.toNat = 0x0B ∨ c.toNat = 0x0C)

/-- Remove leading and trailing whitespace (model of `str::trim`). -/
def trimL (l : Str) : Str :=
  ((l.dropWhile isWS).reverse.dropWhile isWS).reverse

/-- Lower-case every character, ASCII case folding (model of
`str::to_lowercase` on the ASCII tokens this grammar compares). -/
def toLowerL (l : Str) : Str := l.map Char.toLower

/-- Does the character `c` occur in `l`? -/
def containsChar (c : Char) (l : Str) : Bool := l.any (fun x => x = c)

/-- `HashMap::insert`: replace the value of an existing key, otherwise add
the pair. -/
def insertA : HMap → Str → Str → HMap
  | [], k, v => [(k, v)]
  | (k', v') :: rest, k, v =>
    if k' = k then (k, v) :: rest else (k', v') :: insertA rest k v

/-- `HashMap::get`: the value stored at a key, if any. -/
def lookupA : HMap → Str → Option Str
  | [], _ => none
  | (k', v') :: rest, k => if k' = k then some v' else lookupA rest k

/-- The value of the LAST pair of `ps` whose key is `k`, if any. -/
def lastLookup : List (Str × Str) → Str → Option Str
  | [], _ => none
  | p :: rest, k =>
    match lastLookup rest k with
    | some v => some v
    | none => if p.1 = k then some p.2 else none

/-- `a` if it is `some`, otherwise `b`. -/
def orElseO (a b : Option Str) : Option Str :=
  match a with
  | some v => some v
  | none => b

/-- Apply `f` to every element, failing if any application fails. -/
def mapO (f : α → Option β) : List α → Option (List β)
  | [] => some []
  | x :: xs =>
    match f x with
    | none => none
    | some y => (mapO f xs).map (fun ys => y :: ys)

/-- The error enum of `http.rs`. -/
inductive Error
  | InvalidMethod
  | InvalidProtocol
deriving DecidableEq

/-- The `StatusCode` enum of `http.rs`. -/
inductive StatusCode
  | Ok
  | NoContent
  | NotFound
deriving DecidableEq

/-- The `Display` rendering of a status code. -/
def StatusCode.display : StatusCode → Str
  | .Ok => "200 Okay".toList
  | .NoContent => "204 No Content".toList
  | .NotFound => "404 Not Found".toList

/-- The `Protocol` enum of `http.rs`. -/
inductive Protocol
  | Http1_1
  | Http1_0
  | Http0_9
deriving DecidableEq

/-- `From<Protocol> for &str`: the canonical protocol token. -/
def Protocol.render : Protocol → Str
  | .Http1_1 => "HTTP/1.1".toList
  | .Http1_0 => "HTTP/1.0".toList
  | .Http0_9 => "HTTP/0.9".toList

/-- `TryFrom<&str> for Protocol`: case-insensitive match of the token. -/
def Protocol.tryFrom (s : Str) : Except Error Protocol :=
  if toLowerL s = "http/1.1".toList then .ok .Http1_1
  else if toLowerL s = "http/1.0".toList then .ok .Http1_0
  else if toLowerL s = "http/0.9".toList then .ok .Http0_9
  else .error .InvalidProtocol

/-- The `Method` enum of `http.rs`. -/
inductive Method
  | Connect
  | Get
  | Post
deriving DecidableEq

/-- `TryFrom<&str> for Method`: case-insensitive match of the token. -/
def Method.tryFrom (s : Str) : Except Error Method :=
  if toLowerL s = "connect".toList then .ok .Connect
  else if toLowerL s = "get".toList then .ok .Get
  else if toLowerL s = "post".toList then .ok .Post
  else .error .InvalidMethod

/-- Is the `Except` value an error? -/
def isErr : Except Error α → Bool
  | .error _ => true
  | .ok _ => false

/-- The `Response` struct of `http.rs`. -/
structure Response where
  protocol : Protocol
  status_code : StatusCode
  headers : HMap
  body : Option Str
deriving DecidableEq

/-- `Response::new`: HTTP/1.1, 200 OK, no headers, no body. -/
def Response.new : Response :=
  { protocol := .Http1_1, status_code := .Ok, headers := [], body := none }

/-- `Response::set_status_code`. -/
def Response.set_status_code (r : Response) (s : StatusCode) : Response :=
  { r with status_code := s }

/-- `Response::add_header`. -/
def Response.add_header (r : Response) (k v : Str) : Response :=
  { r with headers := insertA r.headers k v }

/-- `Response::set_body`. -/
def Response.set_body (r : Response) (b : Str) : Response :=
  { r with body := some b }

/-- One configuration call of the `Response` builder. -/
inductive BuilderCall
  | status (s : StatusCode)
  | header (k v : Str)
  | bodySet (b : Str)
deriving DecidableEq

/-- Apply one builder call to a response. -/
def applyCall (r : Response) : BuilderCall → Response
  | .status s => r.set_status_code s
  | .header k v => r.add_header k v
  | .bodySet b => r.set_body b

/-- Apply a sequence of builder calls, in order. -/
def applyCalls (r : Response) (cs : List BuilderCall) : Response :=
  cs.foldl applyCall r

/-- The `"Content-Length"` key inserted by `Response::serialise`. -/
def contentLengthKey : Str := "Content-Length".toList

/-- The `"\r\n"` line terminator. -/
def crlf : Str := "\r\n".toList

/-- The `"\r\n\r\n"` separator between header block and body. -/
def sep : Str := "\r\n\r\n".toList

/-- Decimal rendering of a natural number (model of `usize::to_string`). -/
def natDecimal (n : Nat) : Str := Nat.toDigits 10 n

/-- The header block rendering of `Response::serialise`: each pair as
`"<key>: <value>\r\n"`, in iteration order. -/
def renderHeaders (hs : HMap) : Str :=
  hs.foldl (fun acc p => acc ++ p.1 ++ ": ".toList ++ p.2 ++ crlf) []

/-- `Response::serialise`: if a body is present, insert a
`Content-Length` header with its byte length; take the body out
(defaulting to the empty string); render
`"<protocol> <status>\r\n<headers>\r\n<body>"`. Returns the output
together with the mutated receiver. -/
def Response.serialise (r : Response) : Str × Response :=
  let hs :=
    match r.body with
    | some b => insertA r.headers contentLengthKey (natDecimal (utf8Len b))
    | none => r.headers
  let bodyOut := r.body.getD []
  (r.protocol.render ++ [' '] ++ r.status_code.display ++ crlf ++
      renderHeaders hs ++ crlf ++ bodyOut,
    { r with headers := hs, body := none })

/-- The `Request` struct of `http.rs`. -/
structure Request where
  protocol : Protocol
  method : Method
  path : Str
  headers : HMap
  body : Str
  query : Option HMap
deriving DecidableEq

/-- The result of `Request::from_bytes`: a decoded request, or a panic of
the process (the source unwraps every fallible step; its signature has no
error channel). -/
inductive DecodeOutcome
  | ok (r : Request)
  | panic
deriving DecidableEq

/-- The query loop of `Request::from_bytes`: each `&`-separated segment is
split at its first `=` (panic when absent, modelled by `none`) and the
pair inserted into the accumulator map. -/
def parseQueryGo : List Str → HMap → Option HMap
  | [], acc => some acc
  | seg :: rest, acc =>
    match splitOnceChar '=' seg with
    | none => none
    | some (k, v) => parseQueryGo rest (insertA acc k v)

/-- The query-string parsing of `Request::from_bytes`. -/
def parseQuery (qs : Str) : Option HMap :=
  parseQueryGo (splitAllChar '&' qs) []

/-- The request-target handling of `Request::from_bytes`: split at the
first `?`, strip trailing `/` from the path part, parse the query part
when present. -/
def parseTarget (uri : Str) : Option (Str × Option HMap) :=
  let p := splitN2 '?' uri
  let path := trimEndMatches '/' p.1
  match p.2 with
  | none => some (path, none)
  | some qs =>
    match parseQuery qs with
    | none => none
    | some q => some (path, some q)

/-- The single transformation `Request::from_bytes` applies to a header
line: split at the first `:`, trim both sides, lower-case the key. -/
def lineToPair (l : Str) : Option (Str × Str) :=
  (splitOnceChar ':' l).map (fun p => (toLowerL (trimL p.1), trimL p.2))

/-- The header loop of `Request::from_bytes`: each line is split at its
first `:` (panic when absent, modelled by `none`); the trimmed,
lower-cased key and trimmed value are inserted into the accumulator. -/
def parseHeadersGo : List Str → HMap → Option HMap
  | [], acc => some acc
  | line :: rest, acc =>
    match splitOnceChar ':' line with
    | none => none
    | some (k, v) =>
      parseHeadersGo rest (insertA acc (toLowerL (trimL k)) (trimL v))

/-- `Request::from_bytes`, step for step: UTF-8 validation, split at the
first `\r\n\r\n`, first line split on spaces into method / request-target
/ protocol tokens, query and header parsing. Every `.unwrap()` of the
source becomes the `panic` outcome. -/
def from_bytes (buf : List Nat) : DecodeOutcome :=
  match utf8Decode buf with
  | none => .panic
  | some raw =>
  match splitOnceSeq sep raw with
  | none => .panic
  | some (rawHeaders, body) =>
  match rustLines rawHeaders with
  | [] => .panic
  | firstLine :: headerLines =>
  match splitAllChar ' ' firstLine with
  | [] => .panic
  | methodTok :: restToks =>
  match Method.tryFrom methodTok with
  | .error _ => .panic
  | .ok method =>
  match restToks with
  | [] => .panic
  | uriTok :: restToks2 =>
  match parseTarget uriTok with
  | none => .panic
  | some (path, query) =>
  match restToks2 with
  | [] => .panic
  | protoTok :: _ =>
  match Protocol.tryFrom protoTok with
  | .error _ => .panic
  | .ok protocol =>
  match parseHeadersGo headerLines [] with
  | none => .panic
  | some headers =>
    .ok { protocol := protocol, method := method, path := path,
          headers := headers, body := body, query := query }

/-- The malformation conditions of the specification, decided over the
stages of the decoder: the buffer is not valid text, or lacks the
CRLF-CRLF separator, or the request line is missing its target or
protocol token, or the method or protocol token fails grammar validation,
or a query segment lacks `=`, or a header line lacks `:`. -/
def malformedB (buf : List Nat) : Bool :=
  match utf8Decode buf with
  | none => true
  | some raw =>
  match splitOnceSeq sep raw with
  | none => true
  | some (rawHeaders, _) =>
  match rustLines rawHeaders with
  | [] => true
  | firstLine :: headerLines =>
  match splitAllChar ' ' firstLine with
  | [] => true
  | methodTok :: restToks =>
  match Method.tryFrom methodTok with
  | .error _ => true
  | .ok _ =>
  match restToks with
  | [] => true
  | uriTok :: restToks2 =>
  match parseTarget uriTok with
  | none => true
  | some _ =>
  match restToks2 with
  | [] => true
  | protoTok :: _ =>
  match Protocol.tryFrom protoTok with
  | .error _ => true
  | .ok _ =>
  (parseHeadersGo headerLines []).isNone

instance {α β : Type} [DecidableEq α] [DecidableEq β] : DecidableEq (Except α β) :=
  fun a b =>
    match a, b with
    | .ok x, .ok y =>
      if h : x = y then .isTrue (h ▸ rfl) else .isFalse (by simp [h])
    | .error x, .error y =>
      if h : x = y then .isTrue (h ▸ rfl) else .isFalse (by simp [h])
    | .ok _, .error _ => .isFalse (by simp)
    | .error _, .ok _ => .isFalse (by simp)

theorem lookupA_insertA (m : HMap) (k v q : Str) :
    lookupA (insertA m k v) q = if k = q then some v else lookupA m q := by
  induction m with
  | nil => simp [insertA, lookupA]
  | cons p rest ih =>
    obtain ⟨k', v'⟩ := p
    simp only [insertA]
    by_cases hk : k' = k
    · subst hk
      simp only [if_pos rfl, lookupA]
      by_cases hq : k' = q <;> simp [hq]
    · simp only [if_neg hk, lookupA]
      by_cases hq : k' = q
      · subst hq
        have hkq : ¬(k = k') := fun h => hk h.symm
        simp [hkq]
      · simp [hq, ih]

theorem orElseO_none (a : Option Str) : orElseO a none = a := by
  cases a <;> rfl

theorem lookupA_foldl_insertA (ps : List (Str × Str)) (init : HMap) (q : Str) :
    lookupA (ps.foldl (fun m p => insertA m p.1 p.2) init) q =
      orElseO (lastLookup ps q) (lookupA init q) := by
  induction ps generalizing init with
  | nil => simp [lastLookup, orElseO]
  | cons p rest ih =>
    simp only [List.foldl_cons, lastLookup, ih, lookupA_insertA]
    cases hl : lastLookup rest q with
    | some v => simp [orElseO]
    | none =>
      by_cases hp : p.1 = q
      · simp [orElseO, hp]
      · simp [orElseO, hp]

theorem mem_insertA_self (m : HMap) (k v : Str) : (k, v) ∈ insertA m k v := by
  induction m with
  | nil => simp [insertA]
  | cons p rest ih =>
    obtain ⟨k', v'⟩ := p
    simp only [insertA]
    split
    · simp
    · simp [ih]

theorem parseQueryGo_eq (segs : List Str) (acc : HMap) :
    parseQueryGo segs acc =
      (mapO (splitOnceChar '=') segs).map
        (fun ps => ps.foldl (fun m p => insertA m p.1 p.2) acc) := by
  induction segs generalizing acc with
  | nil => simp [parseQueryGo, mapO]
  | cons seg rest ih =>
    cases hsp : splitOnceChar '=' seg with
    | none => simp [parseQueryGo, mapO, hsp]
    | some p =>
      obtain ⟨k, v⟩ := p
      simp [parseQueryGo, mapO, hsp, ih, Option.map_map]
      rfl

theorem parseHeadersGo_eq (ls : List Str) (acc : HMap) :
    parseHeadersGo ls acc =
      (mapO lineToPair ls).map
        (fun ps => ps.foldl (fun m p => insertA m p.1 p.2) acc) := by
  induction ls generalizing acc with
  | nil => simp [parseHeadersGo, mapO]
  | cons line rest ih =>
    cases hsp : splitOnceChar ':' line with
    | none => simp [parseHeadersGo, mapO, lineToPair, hsp]
    | some p =>
      obtain ⟨k, v⟩ := p
      simp [parseHeadersGo, mapO, lineToPair, hsp, ih, Option.map_map]
      rfl

theorem splitOnceChar_eq_none (c : Char) (l : Str) (h : containsChar c l = false) :
    splitOnceChar c l = none := by
  induction l with
  | nil => rfl
  | cons x xs ih =>
    simp only [containsChar, List.any_cons, Bool.or_eq_false_iff] at h
    simp only [splitOnceChar, if_neg (by simpa using h.1)]
    rw [ih (by simpa [containsChar] using h.2)]
    rfl

theorem renderHeaders_eq (hs : HMap) :
    renderHeaders hs =
      (hs.map (fun p => p.1 ++ ": ".toList ++ p.2 ++ crlf)).flatten := by
  have main : ∀ (l : HMap) (a : Str),
      l.foldl (fun acc p => acc ++ p.1 ++ ": ".toList ++ p.2 ++ crlf) a =
        a ++ (l.map (fun p => p.1 ++ ": ".toList ++ p.2 ++ crlf)).flatten := by
    intro l
    induction l with
    | nil => simp
    | cons p rest ih =>
      intro a
      simp only [List.foldl_cons]
      rw [ih]
      simp [List.append_assoc]
  simpa [renderHeaders] using main hs []

theorem infix_renderHeaders {k v : Str} {hs : HMap} (h : (k, v) ∈ hs) :
    (k ++ ": ".toList ++ v ++ crlf) <:+: renderHeaders hs := by
  rw [renderHeaders_eq]
  exact List.infix_of_mem_flatten
    (List.mem_map_of_mem (fun p => p.1 ++ ": ".toList ++ p.2 ++ crlf) h)

theorem infix_extend {x m : Str} (a b : Str) (h : x <:+: m) :
    x <:+: a ++ m ++ b := by
  obtain ⟨s, t, hst⟩ := h
  exact ⟨a ++ s, t ++ b, by rw [← hst]; simp [List.append_assoc]⟩

/-- Claim C3: parsing the canonical rendered token of each of the three
protocol variants yields the same variant back. -/
theorem C3_protocol_roundtrip :
    ∀ p : Protocol, Protocol.tryFrom (Protocol.render p) = .ok p := by
  intro p
  cases p <;> decide

/-- Claim C4: decoding the exact buffer `"GET / HTTP/1.1\r\n\r\n"` succeeds
with method GET, empty path (the lone `/` stripped as a trailing slash),
protocol HTTP/1.1, empty headers, empty body, and an absent query. -/
theorem C4_decode_minimal_get :
    from_bytes (strBytes "GET / HTTP/1.1\r\n\r\n") =
      DecodeOutcome.ok
        { protocol := .Http1_1, method := .Get, path := [], headers := [],
          body := [], query := none } := by
  decide

/-- Claim C8: `Method.tryFrom` succeeds exactly when the token
case-insensitively equals one of `connect`, `get`, `post` (yielding the
corresponding variant) and fails with `Error.InvalidMethod` otherwise; in
particular it fails on `"delete"`. -/
theorem C8_parse_method : ∀ t : Str,
    (Method.tryFrom t = .ok .Connect ↔ toLowerL t = "connect".toList) ∧
    (Method.tryFrom t = .ok .Get ↔ toLowerL t = "get".toList) ∧
    (Method.tryFrom t = .ok .Post ↔ toLowerL t = "post".toList) ∧
    (Method.tryFrom t = .error .InvalidMethod ↔
      ¬(toLowerL t = "connect".toList ∨ toLowerL t = "get".toList ∨
        toLowerL t = "post".toList)) ∧
    Method.tryFrom ("delete".toList) = .error .InvalidMethod := by
  intro t
  refine ⟨?_, ?_, ?_, ?_, by decide⟩ <;>
    (unfold Method.tryFrom; split_ifs <;> simp_all)

/-- Claim C2: `Response.serialise` inserts/overwrites a header entry with
exact key `Content-Length` valued at the decimal byte length of the body
whenever a body is present, rendering the body after the blank line (a
404 response with body `"nope"` producing `Content-Length: 4`); when no
body is set, the header map is left unchanged and the body section of the
output is empty. -/
theorem C2_serialise_content_length : ∀ (r : Response) (b : Str),
    (r.body = some b →
      (r.serialise).1 =
        r.protocol.render ++ [' '] ++ r.status_code.display ++ crlf ++
          renderHeaders
            (insertA r.headers contentLengthKey (natDecimal (utf8Len b))) ++
          crlf ++ b ∧
      lookupA ((r.serialise).2).headers contentLengthKey =
        some (natDecimal (utf8Len b))) ∧
    (r.body = none →
      (((r.serialise).2).headers = r.headers ∧
        (r.serialise).1 =
          r.protocol.render ++ [' '] ++ r.status_code.display ++ crlf ++
            renderHeaders r.headers ++ crlf)) ∧
    (((Response.new.set_status_code .NotFound).set_body
        ("nope".toList)).serialise).1 =
      "HTTP/1.1 404 Not Found\r\nContent-Length: 4\r\n\r\nnope".toList := by
  intro r b
  refine ⟨?_, ?_, by decide⟩
  · intro hb
    constructor
    · simp [Response.serialise, hb]
    · simp [Response.serialise, hb, lookupA_insertA]
  · intro hb
    constructor
    · simp [Response.serialise, hb]
    · simp [Response.serialise, hb]

/-- Claim C2 witness at concrete inputs: a response with body `"ab"` and a
fresh response with no body. -/
theorem C2_witness :
    lookupA (((Response.new.set_body ("ab".toList)).serialise).2).headers
      contentLengthKey = some ("2".toList) ∧
    ((Response.new.serialise).2).headers = [] := by
  constructor
  · have h := ((C2_serialise_content_length
      (Response.new.set_body ("ab".toList)) ("ab".toList)).1 (by decide)).2
    rw [h]
    decide
  · exact ((C2_serialise_content_length Response.new []).2.1 (by decide)).1

/-- Claim C9: `Response.serialise` consumes the body: the mutated receiver
has an absent body, so a second call renders an empty body section (the
output ends at the blank line, with nothing re-added after it). -/
theorem C9_serialise_consumes_body : ∀ r : Response,
    ((r.serialise).2).body = none ∧
    (((r.serialise).2).serialise).1 =
      r.protocol.render ++ [' '] ++ r.status_code.display ++ crlf ++
        renderHeaders ((r.serialise).2).headers ++ crlf := by
  intro r
  cases hb : r.body <;> simp [Response.serialise, hb]

/-- Claim C10: after a first `serialise` of a response whose body was set,
the headers still contain the `Content-Length` entry valued at the
original body's byte length; protocol and status code are unchanged, the
body is gone, no other header entry changed, and a second `serialise`
emits an empty body section while its header block still carries the
stale `Content-Length` line. -/
theorem C10_serialise_frame : ∀ (r : Response) (b : Str), r.body = some b →
    lookupA ((r.serialise).2).headers contentLengthKey =
      some (natDecimal (utf8Len b)) ∧
    ((r.serialise).2).protocol = r.protocol ∧
    ((r.serialise).2).status_code = r.status_code ∧
    ((r.serialise).2).body = none ∧
    (∀ q : Str, q ≠ contentLengthKey →
      lookupA ((r.serialise).2).headers q = lookupA r.headers q) ∧
    (((r.serialise).2).serialise).1 =
      r.protocol.render ++ [' '] ++ r.status_code.display ++ crlf ++
        renderHeaders
          (insertA r.headers contentLengthKey (natDecimal (utf8Len b))) ++
        crlf ∧
    (contentLengthKey ++ ": ".toList ++ natDecimal (utf8Len b) ++ crlf) <:+:
      (((r.serialise).2).serialise).1 := by
  intro r b hb
  refine ⟨?_, ?_, ?_, ?_, ?_, ?_, ?_⟩
  · simp [Response.serialise, hb, lookupA_insertA]
  · simp [Response.serialise]
  · simp [Response.serialise]
  · simp [Response.serialise]
  · intro q hq
    have hq' : ¬(contentLengthKey = q) := fun h => hq h.symm
    simp [Response.serialise, hb, lookupA_insertA, hq']
  · simp [Response.serialise, hb]
  · have hmem : (contentLengthKey, natDecimal (utf8Len b)) ∈
        insertA r.headers contentLengthKey (natDecimal (utf8Len b)) :=
      mem_insertA_self _ _ _
    have hinf := infix_extend
      (r.protocol.render ++ [' '] ++ r.status_code.display ++ crlf) crlf
      (infix_renderHeaders hmem)
    simpa [Response.serialise, hb, List.append_assoc] using hinf

/-- Claim C10 witness: a concrete response with body `"hi"`. -/
theorem C10_witness :
    lookupA (((Response.new.set_body ("hi".toList)).serialise).2).headers
      contentLengthKey = some ("2".toList) := by
  have h := (C10_serialise_frame (Response.new.set_body ("hi".toList))
    ("hi".toList) (by decide)).1
  rw [h]
  decide

/-- Claim C7 counterexample: the two orders of the same two `set_body`
calls (a permutation of each other) produce different serialized
outputs, so builder calls do not commute in general. -/
theorem C7_counterexample :
    List.Perm
      [BuilderCall.bodySet ("y".toList), BuilderCall.bodySet ("x".toList)]
      [BuilderCall.bodySet ("x".toList), BuilderCall.bodySet ("y".toList)] ∧
    ((applyCalls Response.new
        [BuilderCall.bodySet ("x".toList),
          BuilderCall.bodySet ("y".toList)]).serialise).1 ≠
      ((applyCalls Response.new
        [BuilderCall.bodySet ("y".toList),
          BuilderCall.bodySet ("x".toList)]).serialise).1 := by
  constructor
  · exact List.Perm.swap _ _ _
  · decide

/-- Claim C7 amended: builder calls that configure different fields
commute (as state transformations, hence in serialized output), and two
`add_header` calls with distinct keys commute up to the header mapping;
calls configuring the same field need not commute. -/
theorem C7_amended_commutation :
    ∀ (r : Response) (s : StatusCode) (b k v k1 v1 k2 v2 q : Str),
    (r.set_status_code s).set_body b = (r.set_body b).set_status_code s ∧
    (r.set_status_code s).add_header k v =
      (r.add_header k v).set_status_code s ∧
    (r.set_body b).add_header k v = (r.add_header k v).set_body b ∧
    (k1 ≠ k2 →
      lookupA (((r.add_header k1 v1).add_header k2 v2).headers) q =
        lookupA (((r.add_header k2 v2).add_header k1 v1).headers) q) := by
  intro r s b k v k1 v1 k2 v2 q
  refine ⟨rfl, rfl, rfl, ?_⟩
  intro hk
  simp only [Response.add_header, lookupA_insertA]
  by_cases h2 : k2 = q <;> by_cases h1 : k1 = q
  · exact absurd (h1.trans h2.symm) hk
  · simp [h1, h2]
  · simp [h1, h2]
  · simp [h1, h2]

/-- Claim C7 witness: two `add_header` calls with the distinct keys `a`
and `b`, reordered, agree on lookup. -/
theorem C7_witness :
    lookupA (((Response.new.add_header ("a".toList) ("1".toList)).add_header
        ("b".toList) ("2".toList)).headers) ("a".toList) =
      lookupA (((Response.new.add_header ("b".toList) ("2".toList)).add_header
        ("a".toList) ("1".toList)).headers) ("a".toList) :=
  (C7_amended_commutation Response.new .Ok [] [] [] ("a".toList) ("1".toList)
    ("b".toList) ("2".toList) ("a".toList)).2.2.2 (by decide)

/-- Claim C5: the decoder's request-target step splits at the first `?`,
strips trailing `/` from the part before it to form the path, and parses
the part after it as `&`-separated `key=value` pairs into a query mapping
in which the last occurrence of a duplicate key wins; a target without
`?` yields an absent query (`none`, distinguishable from an empty
mapping). -/
theorem C5_target_query :
    (∀ uri : Str, containsChar '?' uri = false →
      parseTarget uri = some (trimEndMatches '/' uri, none)) ∧
    (∀ uri a b : Str, splitOnceChar '?' uri = some (a, b) →
      parseTarget uri =
        (parseQuery b).map (fun q => (trimEndMatches '/' a, some q))) ∧
    (∀ (qs : Str) (m : HMap), parseQuery qs = some m →
      ∃ ps, mapO (splitOnceChar '=') (splitAllChar '&' qs) = some ps ∧
        ∀ k : Str, lookupA m k = lastLookup ps k) := by
  refine ⟨?_, ?_, ?_⟩
  · intro uri h
    simp [parseTarget, splitN2, splitOnceChar_eq_none '?' uri h]
  · intro uri a b h
    simp only [parseTarget, splitN2, h]
    cases hq : parseQuery b <;> simp [hq]
  · intro qs m h
    rw [parseQuery, parseQueryGo_eq] at h
    cases hm : mapO (splitOnceChar '=') (splitAllChar '&' qs) with
    | none => rw [hm] at h; simp at h
    | some ps =>
      rw [hm] at h
      simp only [Option.map_some'] at h
      injection h with h
      refine ⟨ps, rfl, fun k => ?_⟩
      rw [← h, lookupA_foldl_insertA]
      simp [lookupA, orElseO_none]

/-- Claim C5 witness: a target without `?`, a target with a query, and a
duplicate-key query in which the last occurrence wins. -/
theorem C5_witness :
    parseTarget ("/ab".toList) =
      some (trimEndMatches '/' ("/ab".toList), none) ∧
    parseTarget ("/a?x=1&x=2".toList) =
      (parseQuery ("x=1&x=2".toList)).map
        (fun q => (trimEndMatches '/' ("/a".toList), some q)) ∧
    lookupA [("x".toList, "2".toList)] ("x".toList) =
      lastLookup [("x".toList, "1".toList), ("x".toList, "2".toList)]
        ("x".toList) := by
  refine ⟨C5_target_query.1 _ (by decide),
    C5_target_query.2.1 _ ("/a".toList) ("x=1&x=2".toList) (by decide), ?_⟩
  obtain ⟨ps, hps, hl⟩ := C5_target_query.2.2 ("x=1&x=2".toList)
    [("x".toList, "2".toList)] (by decide)
  have hps2 : mapO (splitOnceChar '=') (splitAllChar '&' ("x=1&x=2".toList)) =
      some [("x".toList, "1".toList), ("x".toList, "2".toList)] := by decide
  rw [hps2] at hps
  injection hps with h
  subst h
  exact hl _

/-- Claim C6: the decoder's header loop splits every line at its first
`:`, trims whitespace from both sides, lower-cases the key, and inserts
the pair into the mapping, a later occurrence of the same key overwriting
an earlier one. -/
theorem C6_headers : ∀ (ls : List Str) (init m : HMap),
    parseHeadersGo ls init = some m →
    ∃ ps, mapO lineToPair ls = some ps ∧
      ∀ q : Str, lookupA m q = orElseO (lastLookup ps q) (lookupA init q) := by
  intro ls init m h
  rw [parseHeadersGo_eq] at h
  cases hm : mapO lineToPair ls with
  | none => rw [hm] at h; simp at h
  | some ps =>
    rw [hm] at h
    simp only [Option.map_some'] at h
    injection h with h
    refine ⟨ps, rfl, fun q => ?_⟩
    rw [← h]
    exact lookupA_foldl_insertA ps init q

/-- Claim C6 witness: two header lines with the same key up to case and
whitespace; the later one wins. -/
theorem C6_witness :
    lookupA [("x-a".toList, "2".toList)] ("x-a".toList) =
      orElseO
        (lastLookup [("x-a".toList, "1".toList), ("x-a".toList, "2".toList)]
          ("x-a".toList))
        (lookupA ([] : HMap) ("x-a".toList)) := by
  obtain ⟨ps, hps, hl⟩ := C6_headers ["X-a: 1".toList, "x-A:  2 ".toList] []
    [("x-a".toList, "2".toList)] (by decide)
  have hps2 : mapO lineToPair ["X-a: 1".toList, "x-A:  2 ".toList] =
      some [("x-a".toList, "1".toList), ("x-a".toList, "2".toList)] := by decide
  rw [hps2] at hps
  injection hps with h
  subst h
  exact hl _

/-- Claim C1 counterexample: on the malformed buffer `"GET / HTTP/1.1"`
(no CRLF-CRLF separator) decoding panics; it does not return an error
value (the decoder's result type has no error channel to return). -/
theorem C1_counterexample :
    malformedB (strBytes "GET / HTTP/1.1") = true ∧
    from_bytes (strBytes "GET / HTTP/1.1") = DecodeOutcome.panic := by
  constructor <;> decide

/-- Claim C1 amended: for every input byte buffer that is malformed (not
valid text, lacking the CRLF-CRLF separator, missing a target or protocol
token, failing grammar validation, a header line without `:`, or a query
segment without `=`), decoding panics: it does not return an error value
and does not return a best-effort partial request. -/
theorem C1_malformed_panics : ∀ buf : List Nat,
    malformedB buf = true → from_bytes buf = DecodeOutcome.panic := by
  intro buf h
  unfold malformedB at h
  unfold from_bytes
  cases hu : utf8Decode buf with
  | none => simp [hu]
  | some raw =>
    simp only [hu] at h ⊢
    cases hs : splitOnceSeq sep raw with
    | none => simp [hs]
    | some pr =>
      obtain ⟨rawHeaders, body⟩ := pr
      simp only [hs] at h ⊢
      cases hl : rustLines rawHeaders with
      | nil => simp [hl]
      | cons firstLine headerLines =>
        simp only [hl] at h ⊢
        cases ht : splitAllChar ' ' firstLine with
        | nil => simp [ht]
        | cons methodTok restToks =>
          simp only [ht] at h ⊢
          cases hm : Method.tryFrom methodTok with
          | error e => simp [hm]
          | ok mth =>
            simp only [hm] at h ⊢
            cases restToks with
            | nil => simp
            | cons uriTok restToks2 =>
              cases hp : parseTarget uriTok with
              | none => simp [hp]
              | some pq =>
                obtain ⟨path, query⟩ := pq
                simp only [hp] at h ⊢
                cases restToks2 with
                | nil => simp
                | cons protoTok restToks3 =>
                  cases hpr : Protocol.tryFrom protoTok with
                  | error e => simp [hpr]
                  | ok proto =>
                    simp only [hpr] at h ⊢
                    cases hh : parseHeadersGo headerLines [] with
                    | none => simp [hh]
                    | some hdrs => simp [hh] at h

/-- Claim C1 witness: a buffer whose query segment lacks `=` panics, and
so does a buffer whose request line carries a stray trailing `\r` (kept
by `str::lines`, so the protocol token fails grammar validation). -/
theorem C1_witness :
    from_bytes (strBytes "POST /?a HTTP/1.1\r\n\r\n") = DecodeOutcome.panic ∧
    from_bytes (strBytes "GET / HTTP/1.1\r\r\n\r\n") = DecodeOutcome.panic :=
  ⟨C1_malformed_panics _ (by decide), C1_malformed_panics _ (by decide)⟩

end Http
